import Mathlib

/-!
Verification of the P&L Flex Card Generator core
(`src/utils/pnlCalculator.ts`, `src/utils/errorHandler.ts`,
`src/routes/cardRoutes.ts`, `src/services/cardRenderer.ts`).

Numbers are modelled as exact rationals; JavaScript's decimal rendering
primitives (`Math.round`, `Number.prototype.toFixed`,
`Number.prototype.toLocaleString`, `Number.prototype.toExponential`) are
embedded with their ECMAScript rounding rules (ties toward the larger
candidate after sign extraction).

The rational arithmetic of the standard library is restored to its
definitional reducibility so that every definition below evaluates inside
the kernel (concrete instances are settled by `decide`).
-/

set_option allowUnsafeReducibility true

attribute [semireducible] Rat.add Rat.mul Rat.inv Rat.sub Rat.ofScientific

/-- The character for a single decimal digit. -/
def digitChar (n : ℕ) : Char := Char.ofNat (48 + n % 10)

/-- Fuel-driven base-10 digit expansion (most significant first). -/
def natDigitsFuel : ℕ → ℕ → List Char
  | 0, _ => []
  | fuel + 1, n =>
    if n < 10 then [digitChar n]
    else natDigitsFuel fuel (n / 10) ++ [digitChar (n % 10)]

/-- Decimal digits of a natural number, most significant first; `0 ↦ "0"`. -/
def natDigits (n : ℕ) : List Char := natDigitsFuel (n + 1) n

/-- Decimal string of a natural number. -/
def natStr (n : ℕ) : String := ⟨natDigits n⟩

/-- Left-pad a digit list with `'0'` to length `f`. -/
def padZeros (l : List Char) (f : ℕ) : List Char :=
  List.replicate (f - l.length) '0' ++ l

/-- JavaScript `Math.round`: round half toward positive infinity. -/
def jsRound (q : ℚ) : ℤ := ⌊q + 1 / 2⌋

/-- ECMAScript `toFixed` for a non-negative value: the rendered integer is
the one closest to `x·10^f`, ties going to the larger candidate. -/
def jsToFixedNonneg (x : ℚ) (f : ℕ) : String :=
  let n : ℕ := (⌊x * 10 ^ f + 1 / 2⌋).toNat
  if f = 0 then natStr n
  else natStr (n / 10 ^ f) ++ "." ++ ⟨padZeros (natDigits (n % 10 ^ f)) f⟩

/-- ECMAScript `Number.prototype.toFixed`: sign is extracted first, then the
magnitude is rendered with `f` fractional digits. -/
def jsToFixed (x : ℚ) (f : ℕ) : String :=
  if x < 0 then "-" ++ jsToFixedNonneg (-x) f else jsToFixedNonneg x f

/-- Group a reversed digit list into blocks of three separated by `','`. -/
def groupRevFuel : ℕ → List Char → List Char
  | 0, l => l
  | fuel + 1, l =>
    if l.length ≤ 3 then l
    else l.take 3 ++ [','] ++ groupRevFuel fuel (l.drop 3)

/-- Thousands-grouped decimal rendering of a natural number (`1234 ↦ "1,234"`),
as produced by `toLocaleString` for integers in the en-US default locale. -/
def jsGroupNat (n : ℕ) : String :=
  ⟨(groupRevFuel (n + 1) (natDigits n).reverse).reverse⟩

/-- `toLocaleString()` of an integer-valued number. -/
def jsLocaleInt (n : ℤ) : String :=
  (if n < 0 then "-" else "") ++ jsGroupNat n.natAbs

/-- `toLocaleString(undefined, { maximumFractionDigits: 2 })` for a positive
value: thousands grouping, at most two fractional digits (half-expand
rounding), trailing fractional zeros trimmed. -/
def jsLocaleMax2 (q : ℚ) : String :=
  let n : ℕ := (⌊q * 100 + 1 / 2⌋).toNat
  let ip := n / 100
  let fr := n % 100
  if fr = 0 then jsGroupNat ip
  else if fr % 10 = 0 then jsGroupNat ip ++ "." ++ natStr (fr / 10)
  else jsGroupNat ip ++ "." ++ ⟨padZeros (natDigits fr) 2⟩

/-- `10^e` as a rational, for an integer exponent. -/
def qpow10 (e : ℤ) : ℚ :=
  if 0 ≤ e then ((10 : ℚ) ^ e.toNat) else 1 / ((10 : ℚ) ^ (-e).toNat)

/-- Fuel-driven `⌊log10⌋` on naturals (`0` for `n = 0`). -/
def natLog10Fuel : ℕ → ℕ → ℕ
  | 0, _ => 0
  | fuel + 1, n => if n < 10 then 0 else natLog10Fuel fuel (n / 10) + 1

/-- `⌊log10 n⌋` for `n ≥ 1`. -/
def natLog10 (n : ℕ) : ℕ := natLog10Fuel (n + 1) n

/-- The decimal exponent of a positive rational: the `e` with `10^e ≤ q < 10^(e+1)`,
located from the digit counts of numerator and denominator. -/
def qExp (q : ℚ) : ℤ :=
  let c : ℤ := (natLog10 q.num.natAbs : ℤ) - (natLog10 q.den : ℤ)
  if qpow10 c ≤ q then (if qpow10 (c + 1) ≤ q then c + 1 else c) else c - 1

/-- ECMAScript `toExponential(2)`: sign, one leading digit, two fractional
digits of the mantissa, and a signed decimal exponent. -/
def jsToExponential (q : ℚ) : String :=
  if q = 0 then "0.00e+0"
  else
    let s := if q < 0 then "-" else ""
    let aq := |q|
    let e0 := qExp aq
    let m0 : ℤ := ⌊aq / qpow10 e0 * 100 + 1 / 2⌋
    let n : ℤ := if 1000 ≤ m0 then 100 else m0
    let e : ℤ := if 1000 ≤ m0 then e0 + 1 else e0
    s ++ natStr (n.toNat / 100) ++ "." ++ ⟨padZeros (natDigits (n.toNat % 100)) 2⟩
      ++ "e" ++ (if e < 0 then "-" else "+") ++ natStr e.natAbs

/-- `PnLResult` of `pnlCalculator.ts`. -/
structure PnLResult where
  percentageGain : ℚ
  isProfit : Bool
  formattedGain : String
deriving DecidableEq, Repr

/-- `PnLCalculation = PnLResult | PnLError` of `pnlCalculator.ts`. -/
inductive PnLCalculation where
  | ok (result : PnLResult)
  | err (message : String)
deriving DecidableEq, Repr

/-- `roundPrecision` of `pnlCalculator.ts`. -/
def roundPrecision (v : ℚ) : ℚ :=
  if 1000 ≤ |v| then (jsRound v : ℚ)
  else if 1 ≤ |v| then (jsRound (v * 100) : ℚ) / 100
  else (jsRound (v * 10000) : ℚ) / 10000

/-- `formatPct` of `pnlCalculator.ts`. -/
def formatPct (pct : ℚ) : String :=
  let sgn := if 0 ≤ pct then "+" else ""
  if 1000000 ≤ |pct| then sgn ++ jsToFixed (pct / 1000000) 1 ++ "M%"
  else if 10000 ≤ |pct| then sgn ++ jsToFixed (pct / 1000) 1 ++ "K%"
  else if 1000 ≤ |pct| then sgn ++ jsLocaleInt (jsRound pct) ++ "%"
  else if 10 ≤ |pct| then sgn ++ jsToFixed pct 1 ++ "%"
  else if 1 ≤ |pct| then sgn ++ jsToFixed pct 2 ++ "%"
  else sgn ++ jsToFixed pct 4 ++ "%"

/-- `calculatePnL` of `pnlCalculator.ts` (the spec's `computeGain`). -/
def calculatePnL (entryPrice currentPrice : ℚ) : PnLCalculation :=
  if entryPrice ≤ 0 then .err "Entry price must be > 0"
  else if currentPrice < 0 then .err "Current price cannot be negative"
  else
    let pct := (currentPrice - entryPrice) / entryPrice * 100
    .ok ⟨roundPrecision pct, decide (0 ≤ pct), formatPct pct⟩

/-- Count the leading `'0'` characters of a digit list. -/
def leadZeros : List Char → ℕ
  | [] => 0
  | c :: rest => if c = '0' then leadZeros rest + 1 else 0

/-- The meme-coin decomposition of `formatTokenPrice`: the source matches
`price.toFixed(20)` against `/0\.(0*)([1-9]\d{0,3})/`; on the 20 fractional
digits this takes the maximal zero run and then up to four digits starting
at the first non-zero one, failing when all 20 digits are zero. -/
def compactPrice (p : ℚ) : Option String :=
  let n : ℕ := (⌊p * 10 ^ 20 + 1 / 2⌋).toNat
  let ds := padZeros (natDigits n) 20
  let z := leadZeros ds
  if 20 ≤ z then none
  else some ("$0.0" ++ "\x7b" ++ natStr z ++ "\x7d" ++ ⟨(ds.drop z).take 4⟩)

/-- The shared tier chain of `formatTokenPrice` (everything after the
meme-coin early return in `pnlCalculator.ts`). -/
def tokenPriceTail (price : ℚ) : String :=
  if 1000000 ≤ price then "$" ++ jsToFixed (price / 1000000) 2 ++ "M"
  else if 1000 ≤ price then "$" ++ jsLocaleMax2 price
  else if 1 ≤ price then "$" ++ jsToFixed price 2
  else if 0.01 ≤ price then "$" ++ jsToFixed price 4
  else if 0.00001 ≤ price then "$" ++ jsToFixed price 6
  else "$" ++ jsToExponential price

/-- `formatTokenPrice` of `pnlCalculator.ts` (the spec's `formatPrice`). -/
def formatTokenPrice (price : ℚ) : String :=
  if price ≤ 0 then "$0"
  else if price < 0.00001 then
    match compactPrice price with
    | some s => s
    | none => tokenPriceTail price
  else tokenPriceTail price

/-- The §4.2 rule-1 rounding tiers exactly as the spec words them, with
two-sided range conditions. -/
def roundPrecisionSpec (v : ℚ) : ℚ :=
  if 1000 ≤ |v| then (jsRound v : ℚ)
  else if 1 ≤ |v| ∧ |v| < 1000 then (jsRound (v * 100) : ℚ) / 100
  else (jsRound (v * 10000) : ℚ) / 10000

/-- The §4.2 rule-2 display tiers exactly as the claim words them: the sign
is always present (`+` for `v ≥ 0`, the `-` of a negative value coming from
the number rendering), and the tier is selected by two-sided magnitude
ranges. -/
def formatPctSpec (v : ℚ) : String :=
  let body :=
    if 1000000 ≤ |v| then jsToFixed (v / 1000000) 1 ++ "M%"
    else if 10000 ≤ |v| ∧ |v| < 1000000 then jsToFixed (v / 1000) 1 ++ "K%"
    else if 1000 ≤ |v| ∧ |v| < 10000 then jsLocaleInt (jsRound v) ++ "%"
    else if 10 ≤ |v| ∧ |v| < 1000 then jsToFixed v 1 ++ "%"
    else if 1 ≤ |v| ∧ |v| < 10 then jsToFixed v 2 ++ "%"
    else jsToFixed v 4 ++ "%"
  if 0 ≤ v then "+" ++ body else body

/-- The token-price tiers exactly as the claim words them: top-to-bottom,
first matching rule applies, with two-sided range conditions and the failed
meme-coin decomposition falling through directly to exponential notation. -/
def formatTokenPriceSpec (p : ℚ) : String :=
  if p ≤ 0 then "$0"
  else if 0 < p ∧ p < 0.00001 then
    match compactPrice p with
    | some s => s
    | none => "$" ++ jsToExponential p
  else if 1000000 ≤ p then "$" ++ jsToFixed (p / 1000000) 2 ++ "M"
  else if 1000 ≤ p ∧ p < 1000000 then "$" ++ jsLocaleMax2 p
  else if 1 ≤ p ∧ p < 1000 then "$" ++ jsToFixed p 2
  else if 0.01 ≤ p ∧ p < 1 then "$" ++ jsToFixed p 4
  else "$" ++ jsToFixed p 6

/-- JavaScript `toUpperCase` of one character, as the character sequence it
contributes to the result: the simple case mappings of the Basic Latin and
Latin-1 letters (`a`–`z`, `à`–`þ` except `÷`, `ÿ`, `µ`) together with the
Unicode full case mappings that expand into Basic Latin letters
(`ß ↦ SS`, `ŉ`, `ǰ`, `ẚ`, and the Latin ligatures `ﬀ`–`ﬆ`); every other
character is kept unchanged. -/
def jsUpperChars (c : Char) : List Char :=
  if 'a' ≤ c ∧ c ≤ 'z' then [Char.ofNat (c.toNat - 32)]
  else if c = 'µ' then ['Μ']
  else if c = 'ß' then ['S', 'S']
  else if 'à' ≤ c ∧ c ≤ 'þ' ∧ c ≠ '÷' then [Char.ofNat (c.toNat - 32)]
  else if c = 'ÿ' then ['Ÿ']
  else if c = 'ŉ' then [Char.ofNat 700, 'N']
  else if c = 'ǰ' then ['J', Char.ofNat 780]
  else if c = 'ẚ' then ['A', Char.ofNat 702]
  else if c = 'ﬀ' then ['F', 'F']
  else if c = 'ﬁ' then ['F', 'I']
  else if c = 'ﬂ' then ['F', 'L']
  else if c = 'ﬃ' then ['F', 'F', 'I']
  else if c = 'ﬄ' then ['F', 'F', 'L']
  else if c = 'ﬅ' then ['S', 'T']
  else if c = 'ﬆ' then ['S', 'T']
  else [c]

/-- JavaScript `String.prototype.toUpperCase`. -/
def jsToUpper (s : String) : String := ⟨s.data.flatMap jsUpperChars⟩

/-- Membership in the ticker charset `[A-Z0-9$]` kept by `sanitizeTicker`. -/
def isTickerKeep (c : Char) : Bool :=
  decide (('A' ≤ c ∧ c ≤ 'Z') ∨ ('0' ≤ c ∧ c ≤ '9') ∨ c = '$')

/-- `sanitizeTicker` of `errorHandler.ts`:
`ticker.toUpperCase().replace(/[^A-Z0-9$]/g, '').slice(0, 20)`. -/
def sanitizeTicker (ticker : String) : String :=
  ⟨((ticker.data.flatMap jsUpperChars).filter isTickerKeep).take 20⟩

/-- The UTF-16 width of a character: astral characters occupy two code
units in a JavaScript string. -/
def utf16Width (c : Char) : ℕ := if c < Char.ofNat 65536 then 1 else 2

/-- JavaScript `String.prototype.length`: the UTF-16 code-unit count. -/
def utf16Len (s : String) : ℕ := (s.data.map utf16Width).sum

/-- The characters removed by `sanitizeString`:
ASCII control characters `0x00`–`0x1F`, `0x7F`, and the angle brackets. -/
def isStripped (c : Char) : Bool :=
  decide (c.toNat ≤ 31) || decide (c.toNat = 127) || c == '<' || c == '>'

/-- The whitespace class of JavaScript `String.prototype.trim`. -/
def jsIsSpace (c : Char) : Bool :=
  let n := c.toNat
  decide (n = 32 ∨ (9 ≤ n ∧ n ≤ 13) ∨ n = 0xA0 ∨ n = 0x1680 ∨
    (0x2000 ≤ n ∧ n ≤ 0x200A) ∨ n = 0x2028 ∨ n = 0x2029 ∨ n = 0x202F ∨
    n = 0x205F ∨ n = 0x3000 ∨ n = 0xFEFF)

/-- Drop leading and trailing JavaScript whitespace. -/
def trimList (l : List Char) : List Char :=
  (((l.dropWhile jsIsSpace).reverse).dropWhile jsIsSpace).reverse

/-- JavaScript `String.prototype.trim`. -/
def jsTrim (s : String) : String := ⟨trimList s.data⟩

/-- `sanitizeString` of `errorHandler.ts`:
`input.replace(/[\x00-\x1F\x7F<>]/g, '').trim().slice(0, maxLength)`. -/
def sanitizeString (input : String) (maxLength : ℕ) : String :=
  ⟨(trimList (input.data.filter (fun c => !isStripped c))).take maxLength⟩

/-- A JSON field value as the validator can observe it: absent, `null`, a
string, a finite number, `NaN`, an infinity, or a boolean. -/
inductive JVal where
  | undef
  | jnull
  | jstr (s : String)
  | jnum (q : ℚ)
  | jnan
  | jinf
  | jbool (b : Bool)
deriving DecidableEq, Repr

/-- JavaScript truthiness (`!v` is the negation of this). -/
def JVal.falsy : JVal → Bool
  | .undef => true
  | .jnull => true
  | .jnan => true
  | .jstr s => s == ""
  | .jnum q => q == 0
  | .jinf => false
  | .jbool b => !b

/-- JavaScript loose `v == null` (true exactly for `undefined` and `null`). -/
def JVal.isNullish : JVal → Bool
  | .undef => true
  | .jnull => true
  | _ => false

/-- `typeof v === 'string'`. -/
def JVal.isStr : JVal → Bool
  | .jstr _ => true
  | _ => false

/-- `typeof v === 'number' && isFinite(v)`. -/
def JVal.isFiniteNum : JVal → Bool
  | .jnum _ => true
  | _ => false

/-- The string payload (the routes only read it on validated strings). -/
def JVal.asStr : JVal → String
  | .jstr s => s
  | _ => ""

/-- The numeric payload (the routes only read it on validated numbers). -/
def JVal.asNum : JVal → ℚ
  | .jnum q => q
  | _ => 0

/-- `MAX_PRICE` of `cardRoutes.ts`. -/
def MAX_PRICE : ℚ := 10 ^ 15

/-- `MIN_PRICE` of `cardRoutes.ts`. -/
def MIN_PRICE : ℚ := 1 / 10 ^ 20

/-- The first guard of the ticker check in `validate`:
`!b.ticker || typeof b.ticker !== 'string' || !b.ticker.trim()`. -/
def tickerRequiredFail (t : JVal) : Bool :=
  t.falsy || !t.isStr || jsTrim t.asStr == ""

/-- The ticker branch of `validate`. -/
def tickerErrs (t : JVal) : List String :=
  if tickerRequiredFail t then ["ticker is required"]
  else if 20 < utf16Len t.asStr then ["ticker must be 20 characters or less"]
  else []

/-- The `entry_price` branch of `validate`. -/
def entryErrs (v : JVal) : List String :=
  if v.isNullish then ["entry_price is required"]
  else if !v.isFiniteNum then ["entry_price must be a valid number"]
  else if v.asNum ≤ 0 then ["entry_price must be greater than zero"]
  else if v.asNum < MIN_PRICE ∨ MAX_PRICE < v.asNum then ["entry_price out of range"]
  else []

/-- The `current_price` branch of `validate`. -/
def currentErrs (v : JVal) : List String :=
  if v.isNullish then ["current_price is required"]
  else if !v.isFiniteNum then ["current_price must be a valid number"]
  else if v.asNum < 0 then ["current_price cannot be negative"]
  else if MAX_PRICE < v.asNum then ["current_price out of range"]
  else []

/-- The `theme` branch of `validate` (`THEMES.includes` compares with
strict equality, so only the three theme strings pass). -/
def themeErrs (v : JVal) : List String :=
  if v.isNullish = false ∧ v ≠ .jstr "dark" ∧ v ≠ .jstr "light" ∧ v ≠ .jstr "degen"
  then ["theme must be: dark, light, degen"] else []

/-- The `wallet_tag` branch of `validate`. -/
def tagErrs (v : JVal) : List String :=
  if v.isNullish = false ∧ (v.isStr = false ∨ 50 < utf16Len v.asStr)
  then ["wallet_tag invalid"] else []

/-- The `timestamp` branch of `validate`. -/
def tsErrs (v : JVal) : List String :=
  if v.isNullish = false ∧ (v.isStr = false ∨ 100 < utf16Len v.asStr)
  then ["timestamp invalid"] else []

/-- The raw field bag handed to `validate` (a `CardRequest` before any
type assumptions hold). -/
structure ReqBag where
  ticker : JVal
  entry_price : JVal
  current_price : JVal
  theme : JVal
  wallet_tag : JVal
  timestamp : JVal
deriving DecidableEq, Repr

/-- `validate` of `cardRoutes.ts`: each field contributes the errors its
`if`/`else if` chain pushes, and all contributions are concatenated. -/
def validate (b : ReqBag) : List String :=
  tickerErrs b.ticker ++ entryErrs b.entry_price ++ currentErrs b.current_price
    ++ themeErrs b.theme ++ tagErrs b.wallet_tag ++ tsErrs b.timestamp

/-- `Theme` of `cardRenderer.ts`. -/
inductive Theme where
  | dark
  | light
  | degen
deriving DecidableEq, Repr

/-- `CardData` of `cardRenderer.ts`. -/
structure CardData where
  tokenSymbol : String
  entryPrice : ℚ
  currentPrice : ℚ
  pnl : PnLResult
  walletTag : Option String
  timestamp : Option String
deriving DecidableEq, Repr

/-- A fill style handed to the canvas: a solid color string or a linear
gradient with its endpoints and color stops. -/
inductive Fill where
  | color (c : String)
  | linearGradient (x0 y0 x1 y1 : ℚ) (stops : List (ℚ × String))
deriving DecidableEq, Repr

/-- One drawing-surface operation issued by `renderCard` (the capability
interface of spec §4.5: state setters plus fill/stroke/text primitives). -/
inductive DrawOp where
  | setFillStyle (f : Fill)
  | setStrokeStyle (c : String)
  | setFont (f : String)
  | setTextAlign (a : String)
  | setTextBaseline (b : String)
  | setGlobalAlpha (a : ℚ)
  | setLineWidth (w : ℚ)
  | setShadowColor (c : String)
  | setShadowBlur (b : ℚ)
  | fillRect (x y w h : ℚ)
  | strokeRect (x y w h : ℚ)
  | fillText (t : String) (x y : ℚ)
  | beginPath
  | moveTo (x y : ℚ)
  | lineTo (x y : ℚ)
  | arcTo (x1 y1 x2 y2 r : ℚ)
  | closePath
  | strokePath
  | fillPath
deriving DecidableEq, Repr

/-- The palette record returned by `getColors`. -/
structure ThemeColors where
  bg : Fill
  bgBox : String
  text : String
  textDim : String
  profit : String
  loss : String
  border : Option String
deriving DecidableEq, Repr

/-- `getColors` of `cardRenderer.ts` (palette is a pure function of theme). -/
def getColors : Theme → ThemeColors
  | .light =>
    ⟨.linearGradient 0 0 0 630 [(0, "#fff"), (1, "#f0f0f5")],
      "#e8e8f0", "#1a1a2e", "#666680", "#00aa55", "#dd3355", some "#d0d0e0"⟩
  | .degen =>
    ⟨.linearGradient 0 0 1200 630 [(0, "#0a0015"), (1/2, "#1a0030"), (1, "#0f1a00")],
      "#2a1050", "#fff", "#aa88ff", "#0f0", "#f06", none⟩
  | .dark =>
    ⟨.linearGradient 0 0 0 630 [(0, "#0d0d0d"), (1, "#1a1a2e")],
      "#252540", "#fff", "#888899", "#00ff88", "#f46", none⟩

/-- The `roundedRect` path helper of `cardRenderer.ts`. -/
def roundedRectOps (x y w h r : ℚ) : List DrawOp :=
  [.beginPath, .moveTo (x + r) y,
   .arcTo (x + w) y (x + w) (y + h) r,
   .arcTo (x + w) (y + h) x (y + h) r,
   .arcTo x (y + h) x y r,
   .arcTo x y (x + w) y r,
   .closePath]

/-- `drawDegenEffects` of `cardRenderer.ts`: scanlines every 4 px and four
corner accent strokes. -/
def degenEffectsOps : List DrawOp :=
  [.setGlobalAlpha (3/100), .setFillStyle (.color "#fff")]
    ++ ((List.range 158).map fun y => .fillRect 0 (4 * (y : ℚ)) 1200 1)
    ++ [.setGlobalAlpha (1/2), .setStrokeStyle "#f0f", .setLineWidth 3]
    ++ [.beginPath, .moveTo 0 100, .lineTo 0 0, .lineTo 100 0, .strokePath]
    ++ [.beginPath, .moveTo 1100 0, .lineTo 1200 0, .lineTo 1200 100, .strokePath]
    ++ [.beginPath, .moveTo 0 530, .lineTo 0 630, .lineTo 100 630, .strokePath]
    ++ [.beginPath, .moveTo 1100 630, .lineTo 1200 630, .lineTo 1200 530, .strokePath]
    ++ [.setGlobalAlpha 1]

/-- `renderCard` of `cardRenderer.ts` as the sequence of drawing-surface
operations it issues on the fixed 1200×630 canvas (in source order). -/
def renderCardOps (data : CardData) (θ : Theme) : List DrawOp :=
  let colors := getColors θ
  let pnlColor := if data.pnl.isProfit then colors.profit else colors.loss
  [.setFillStyle colors.bg, .fillRect 0 0 1200 630]
    ++ (if θ = .degen then degenEffectsOps else [])
    ++ (match colors.border with
        | some b => [.setStrokeStyle b, .setLineWidth 2, .strokeRect 1 1 1198 628]
        | none => [])
    ++ [.setFillStyle (.color colors.text), .setFont "bold 72px Roboto",
        .setTextAlign "left", .setTextBaseline "top",
        .fillText ("$" ++ jsToUpper data.tokenSymbol) 60 60,
        .setFillStyle (.color colors.textDim), .setFont "bold 28px Roboto",
        .setTextAlign "right",
        .fillText "P&L CARD" 1140 70,
        .setFillStyle (.color pnlColor), .setFont "bold 140px Roboto",
        .setTextAlign "center", .setTextBaseline "middle",
        .fillText data.pnl.formattedGain 600 270]
    ++ (if θ = .degen then
          [.setShadowColor pnlColor, .setShadowBlur 30,
           .fillText data.pnl.formattedGain 600 270, .setShadowBlur 0]
        else [])
    ++ roundedRectOps 100 380 480 100 16
    ++ [.setFillStyle (.color colors.bgBox), .fillPath,
        .setFillStyle (.color colors.textDim), .setFont "bold 24px Roboto",
        .setTextBaseline "top",
        .fillText "ENTRY" 340 395,
        .setFillStyle (.color colors.text), .setFont "bold 36px Roboto",
        .fillText (formatTokenPrice data.entryPrice) 340 430]
    ++ roundedRectOps 620 380 480 100 16
    ++ [.setFillStyle (.color colors.bgBox), .fillPath,
        .setFillStyle (.color colors.textDim), .setFont "bold 24px Roboto",
        .fillText "CURRENT" 860 395,
        .setFillStyle (.color pnlColor), .setFont "bold 36px Roboto",
        .fillText (formatTokenPrice data.currentPrice) 860 430,
        .setFillStyle (.color colors.textDim), .setFont "bold 40px Roboto",
        .setTextBaseline "middle",
        .fillText "→" 600 430]
    ++ [.setFont "bold 24px Roboto", .setTextBaseline "bottom"]
    ++ (match data.walletTag with
        | some w => [.setFillStyle (.color colors.textDim), .setTextAlign "left",
                     .fillText w 60 560]
        | none => [])
    ++ (match data.timestamp with
        | some t => [.setFillStyle (.color colors.textDim), .setFont "22px Roboto",
                     .setTextAlign "center", .fillText t 600 560]
        | none => [])
    ++ [.setFillStyle (.color colors.textDim), .setFont "bold 20px Roboto",
        .setTextAlign "right", .setGlobalAlpha (3/5),
        .fillText "FLEX CARD" 1140 560, .setGlobalAlpha 1]

/-- The encoded card: the PNG encoder of the drawing backend is an
arbitrary fixed function of the issued operations. -/
def renderCardBytes (encode : List DrawOp → List ℕ) (data : CardData) (θ : Theme) : List ℕ :=
  encode (renderCardOps data θ)

/-- The route's answer, as far as the pipeline state is observable:
a 400 with validation details, a 400 with the P&L domain error, or the
success payload built from the sanitized card data and theme. -/
inductive RouteResult where
  | validationFailed (details : List String)
  | pnlFailed (message : String)
  | success (card : CardData) (theme : String)
deriving DecidableEq, Repr

/-- The `POST /generate-card` handler of `cardRoutes.ts` after body
extraction; `now` stands for the formatted clock reading used when no
timestamp is supplied. -/
def handleGenerateCard (now : String) (b : ReqBag) : RouteResult :=
  let errors := validate b
  if errors.isEmpty = false then .validationFailed errors
  else
    match calculatePnL b.entry_price.asNum b.current_price.asNum with
    | .err m => .pnlFailed m
    | .ok r =>
      let θ := if b.theme.falsy then "dark" else b.theme.asStr
      .success
        { tokenSymbol := sanitizeTicker b.ticker.asStr
          entryPrice := b.entry_price.asNum
          currentPrice := b.current_price.asNum
          pnl := r
          walletTag := if b.wallet_tag.falsy then none
                       else some (sanitizeString b.wallet_tag.asStr 50)
          timestamp := some (if b.timestamp.falsy then now
                             else sanitizeString b.timestamp.asStr 100) }
        θ

/-- Membership in `[A-Za-z0-9$]`, the set whose characters survive
`sanitizeTicker` after upper-casing. -/
def isTickerSourceChar (c : Char) : Bool :=
  decide (('A' ≤ c ∧ c ≤ 'Z') ∨ ('a' ≤ c ∧ c ≤ 'z') ∨ ('0' ≤ c ∧ c ≤ '9') ∨ c = '$')

theorem strEmptyAppend (s : String) : "" ++ s = s := by
  cases s
  rfl

theorem strAppendAssoc (a b c : String) : a ++ b ++ c = a ++ (b ++ c)  := by
  cases a with | mk da =>
  cases b with | mk db =>
  cases c with | mk dc =>
  show String.mk (da ++ db ++ dc) = String.mk (da ++ (db ++ dc))
  exact congrArg String.mk (List.append_assoc da db dc)

/-- `formatPct` implements exactly the two-sided magnitude tiers of the
spec's display rule. -/
theorem formatPct_eq_spec (v : ℚ) : formatPct v = formatPctSpec v := by
  unfold formatPct formatPctSpec
  by_cases h1 : (1000000 : ℚ) ≤ |v|
  · simp only [if_pos h1]
    by_cases hs : (0 : ℚ) ≤ v
    · simp only [if_pos hs, strAppendAssoc]
    · simp only [if_neg hs, strEmptyAppend]
  · have h1' : |v| < 1000000 := not_le.mp h1
    simp only [if_neg h1]
    by_cases h2 : (10000 : ℚ) ≤ |v|
    · simp only [if_pos h2, if_pos (And.intro h2 h1')]
      by_cases hs : (0 : ℚ) ≤ v
      · simp only [if_pos hs, strAppendAssoc]
      · simp only [if_neg hs, strEmptyAppend]
    · have h2' : |v| < 10000 := not_le.mp h2
      have hn2 : ¬((10000 : ℚ) ≤ |v| ∧ |v| < 1000000) := fun h => h2 h.1
      simp only [if_neg h2, if_neg hn2]
      by_cases h3 : (1000 : ℚ) ≤ |v|
      · simp only [if_pos h3, if_pos (And.intro h3 h2')]
        by_cases hs : (0 : ℚ) ≤ v
        · simp only [if_pos hs, strAppendAssoc]
        · simp only [if_neg hs, strEmptyAppend]
      · have h3' : |v| < 1000 := not_le.mp h3
        have hn3 : ¬((1000 : ℚ) ≤ |v| ∧ |v| < 10000) := fun h => h3 h.1
        simp only [if_neg h3, if_neg hn3]
        by_cases h4 : (10 : ℚ) ≤ |v|
        · simp only [if_pos h4, if_pos (And.intro h4 h3')]
          by_cases hs : (0 : ℚ) ≤ v
          · simp only [if_pos hs, strAppendAssoc]
          · simp only [if_neg hs, strEmptyAppend]
        · have h4' : |v| < 10 := not_le.mp h4
          have hn4 : ¬((10 : ℚ) ≤ |v| ∧ |v| < 1000) := fun h => h4 h.1
          simp only [if_neg h4, if_neg hn4]
          by_cases h5 : (1 : ℚ) ≤ |v|
          · simp only [if_pos h5, if_pos (And.intro h5 h4')]
            by_cases hs : (0 : ℚ) ≤ v
            · simp only [if_pos hs, strAppendAssoc]
            · simp only [if_neg hs, strEmptyAppend]
          · have hn5 : ¬((1 : ℚ) ≤ |v| ∧ |v| < 10) := fun h => h5 h.1
            simp only [if_neg h5, if_neg hn5]
            by_cases hs : (0 : ℚ) ≤ v
            · simp only [if_pos hs, strAppendAssoc]
            · simp only [if_neg hs, strEmptyAppend]

/-- `roundPrecision` implements exactly the two-sided rule-1 tiers. -/
theorem roundPrecision_eq_spec (v : ℚ) : roundPrecision v = roundPrecisionSpec v := by
  unfold roundPrecision roundPrecisionSpec
  by_cases h1 : (1000 : ℚ) ≤ |v|
  · simp only [if_pos h1]
  · have h1' : |v| < 1000 := not_le.mp h1
    simp only [if_neg h1]
    by_cases h2 : (1 : ℚ) ≤ |v|
    · simp only [if_pos h2, if_pos (And.intro h2 h1')]
    · have hn2 : ¬((1 : ℚ) ≤ |v| ∧ |v| < 1000) := fun h => h2 h.1
      simp only [if_neg h2, if_neg hn2]

/-- `formatTokenPrice` implements exactly the top-to-bottom tiers of the
spec's price rule, with the failed meme-coin decomposition falling through
to exponential notation. -/
theorem formatTokenPrice_eq_spec (p : ℚ) : formatTokenPrice p = formatTokenPriceSpec p := by
  unfold formatTokenPrice formatTokenPriceSpec
  by_cases h0 : p ≤ 0
  · simp only [if_pos h0]
  · have h0' : 0 < p := not_le.mp h0
    simp only [if_neg h0]
    by_cases hsmall : p < 0.00001
    · simp only [if_pos hsmall, if_pos (And.intro h0' hsmall)]
      cases hc : compactPrice p with
      | some s => rfl
      | none =>
        unfold tokenPriceTail
        have l1 : ¬(1000000 : ℚ) ≤ p := by
          intro h
          have : (0.00001 : ℚ) < 1000000 := by norm_num
          linarith
        have l2 : ¬(1000 : ℚ) ≤ p := by
          intro h
          have : (0.00001 : ℚ) < 1000 := by norm_num
          linarith
        have l3 : ¬(1 : ℚ) ≤ p := by
          intro h
          have : (0.00001 : ℚ) < 1 := by norm_num
          linarith
        have l4 : ¬(0.01 : ℚ) ≤ p := by
          intro h
          have : (0.00001 : ℚ) < 0.01 := by norm_num
          linarith
        have l5 : ¬(0.00001 : ℚ) ≤ p := not_le.mpr hsmall
        simp only [if_neg l1, if_neg l2, if_neg l3, if_neg l4, if_neg l5]
    · have hbig : (0.00001 : ℚ) ≤ p := not_lt.mp hsmall
      have hn : ¬(0 < p ∧ p < 0.00001) := fun h => hsmall h.2
      simp only [if_neg hsmall, if_neg hn]
      unfold tokenPriceTail
      by_cases t1 : (1000000 : ℚ) ≤ p
      · simp only [if_pos t1]
      · have t1' : p < 1000000 := not_le.mp t1
        simp only [if_neg t1]
        by_cases t2 : (1000 : ℚ) ≤ p
        · simp only [if_pos t2, if_pos (And.intro t2 t1')]
        · have t2' : p < 1000 := not_le.mp t2
          have hn2 : ¬((1000 : ℚ) ≤ p ∧ p < 1000000) := fun h => t2 h.1
          simp only [if_neg t2, if_neg hn2]
          by_cases t3 : (1 : ℚ) ≤ p
          · simp only [if_pos t3, if_pos (And.intro t3 t2')]
          · have t3' : p < 1 := not_le.mp t3
            have hn3 : ¬((1 : ℚ) ≤ p ∧ p < 1000) := fun h => t3 h.1
            simp only [if_neg t3, if_neg hn3]
            by_cases t4 : (0.01 : ℚ) ≤ p
            · simp only [if_pos t4, if_pos (And.intro t4 t3')]
            · have hn4 : ¬((0.01 : ℚ) ≤ p ∧ p < 1) := fun h => t4 h.1
              simp only [if_neg t4, if_neg hn4, if_pos hbig]

theorem formatPct_pos (v : ℚ) (h : 0 ≤ v) : ∃ t, formatPct v = "+" ++ t := by
  unfold formatPct
  simp only [if_pos h]
  split_ifs <;> exact ⟨_, strAppendAssoc _ _ _⟩

theorem formatPct_neg (v : ℚ) (h : v < 0) : ∃ t, formatPct v = "-" ++ t := by
  unfold formatPct
  simp only [if_neg (not_le.mpr h), strEmptyAppend]
  split_ifs with g1 g2 g3 g4 g5
  · have hd : v / 1000000 < 0 := div_neg_of_neg_of_pos h (by norm_num)
    rw [jsToFixed, if_pos hd]
    exact ⟨_, strAppendAssoc _ _ _⟩
  · have hd : v / 1000 < 0 := div_neg_of_neg_of_pos h (by norm_num)
    rw [jsToFixed, if_pos hd]
    exact ⟨_, strAppendAssoc _ _ _⟩
  · have hv : v ≤ -1000 := by
      have := abs_of_neg h
      linarith [g3, this]
    have hn : jsRound v < 0 := by
      apply Int.floor_lt.mpr
      push_cast
      linarith
    rw [jsLocaleInt, if_pos hn]
    exact ⟨_, strAppendAssoc _ _ _⟩
  · rw [jsToFixed, if_pos h]
    exact ⟨_, strAppendAssoc _ _ _⟩
  · rw [jsToFixed, if_pos h]
    exact ⟨_, strAppendAssoc _ _ _⟩
  · rw [jsToFixed, if_pos h]
    exact ⟨_, strAppendAssoc _ _ _⟩

theorem calculatePnL_ok (e c : ℚ) (he : 0 < e) (hc : 0 ≤ c) :
    calculatePnL e c =
      .ok ⟨roundPrecision ((c - e) / e * 100), decide (0 ≤ (c - e) / e * 100),
           formatPct ((c - e) / e * 100)⟩ := by
  unfold calculatePnL
  simp only [if_neg (not_le.mpr he), if_neg (not_lt.mpr hc)]

/-- C1 (counterexample): the claim that the returned `percentage` field
equals the raw `(current − entry)/entry × 100` exactly is false: at
`entryPrice = 3`, `currentPrice = 4` the field is the rounded `33.33`
while the raw ratio is `100/3`. -/
theorem c1_counterexample :
    calculatePnL 3 4 = .ok ⟨3333 / 100, true, "+33.3%"⟩ ∧
    (3333 / 100 : ℚ) ≠ (4 - 3) / 3 * 100 := by decide

/-- C1 (amended): for every `entryPrice > 0` and `currentPrice ≥ 0`,
`calculatePnL` succeeds and its `percentageGain` field equals the raw
ratio `(current − entry)/entry × 100` rounded by the rule-1 precision
tiers (`roundPrecision`); it is the rounding of the exact formula value,
not that value itself. -/
theorem c1_percentage_rounded (e c : ℚ) (he : 0 < e) (hc : 0 ≤ c) :
    ∃ r, calculatePnL e c = .ok r ∧
      r.percentageGain = roundPrecision ((c - e) / e * 100) :=
  ⟨_, calculatePnL_ok e c he hc, rfl⟩

theorem c1_percentage_rounded_witness :
    ∃ r, calculatePnL 3 4 = .ok r ∧
      r.percentageGain = roundPrecision ((4 - 3) / 3 * 100) :=
  c1_percentage_rounded 3 4 (by norm_num) (by norm_num)

/-- C2: `calculatePnL` fails with the entry-price message iff
`entryPrice ≤ 0` (checked first), otherwise fails with the current-price
message iff `currentPrice < 0`, otherwise succeeds with `isProfit`
reflecting `percentage ≥ 0` on the raw value — zero change counts as
profit — together with the concrete cases of the spec. -/
theorem c2_domain_errors :
    (∀ e c : ℚ, e ≤ 0 → calculatePnL e c = .err "Entry price must be > 0") ∧
    (∀ e c : ℚ, 0 < e → c < 0 → calculatePnL e c = .err "Current price cannot be negative") ∧
    (∀ e c : ℚ, 0 < e → 0 ≤ c →
      ∃ r, calculatePnL e c = .ok r ∧ r.isProfit = decide (0 ≤ (c - e) / e * 100)) ∧
    calculatePnL 100 100 = .ok ⟨0, true, "+0.0000%"⟩ ∧
    calculatePnL 0 100 = .err "Entry price must be > 0" ∧
    calculatePnL (-1) 100 = .err "Entry price must be > 0" ∧
    calculatePnL 100 (-1) = .err "Current price cannot be negative" := by
  refine ⟨?_, ?_, ?_, by decide, by decide, by decide, by decide⟩
  · intro e c he
    unfold calculatePnL
    simp only [if_pos he]
  · intro e c he hc
    unfold calculatePnL
    simp only [if_neg (not_le.mpr he), if_pos hc]
  · intro e c he hc
    exact ⟨_, calculatePnL_ok e c he hc, rfl⟩

theorem c2_domain_errors_witness :
    calculatePnL (-2) 5 = .err "Entry price must be > 0" ∧
    calculatePnL 2 (-5) = .err "Current price cannot be negative" ∧
    ∃ r, calculatePnL 4 4 = .ok r ∧ r.isProfit = decide (0 ≤ ((4 : ℚ) - 4) / 4 * 100) :=
  ⟨c2_domain_errors.1 (-2) 5 (by norm_num),
   c2_domain_errors.2.1 2 (-5) (by norm_num) (by norm_num),
   c2_domain_errors.2.2.1 4 4 (by norm_num) (by norm_num)⟩

/-- C4: the numeric `percentageGain` and the display `formattedGain` are
both computed from the same raw unrounded percentage — the numeric field
through the rule-1 rounding tiers, the display through the rule-2 display
tiers — and the display is not derived from the rounded number: at raw
percentage `14949.6` the code shows `"+14.9K%"` while formatting the
rounded `14950` would show `"+15.0K%"`. -/
theorem c4_independent_tiering :
    (∀ v : ℚ, roundPrecision v = roundPrecisionSpec v) ∧
    (∀ e c : ℚ, 0 < e → 0 ≤ c →
      calculatePnL e c = .ok ⟨roundPrecision ((c - e) / e * 100),
        decide (0 ≤ (c - e) / e * 100), formatPct ((c - e) / e * 100)⟩) ∧
    calculatePnL 10 (150496 / 100) = .ok ⟨14950, true, "+14.9K%"⟩ ∧
    formatPct 14950 ≠ "+14.9K%" :=
  ⟨roundPrecision_eq_spec, fun e c he hc => calculatePnL_ok e c he hc, by decide, by decide⟩

theorem c4_independent_tiering_witness :
    calculatePnL 5 20 = .ok ⟨roundPrecision (((20 : ℚ) - 5) / 5 * 100),
      decide (0 ≤ ((20 : ℚ) - 5) / 5 * 100), formatPct (((20 : ℚ) - 5) / 5 * 100)⟩ :=
  c4_independent_tiering.2.1 5 20 (by norm_num) (by norm_num)

/-- C10: `isProfit` follows the sign of the raw unrounded percentage while
`percentageGain` is tier-rounded, so they can disagree in sign: at
`entryPrice = 10000000`, `currentPrice = 9999999` (raw percentage
`-0.00001`) the result has `isProfit = false` but `percentageGain = 0`. -/
theorem c10_isProfit_sign_disagrees :
    (0 : ℚ) < 10000000 ∧ (0 : ℚ) ≤ 9999999 ∧
    ((9999999 - 10000000 : ℚ) / 10000000 * 100 < 0) ∧
    calculatePnL 10000000 9999999 = .ok ⟨0, false, "-0.0000%"⟩ := by decide

/-- C3: the display string follows the claimed magnitude tiers computed on
the raw value, with a sign always present (`+` for `v ≥ 0`, `-` for
`v < 0`), and the concrete examples of the spec hold. -/
theorem c3_percentage_display_tiers :
    (∀ v : ℚ, formatPct v = formatPctSpec v) ∧
    (∀ v : ℚ, 0 ≤ v → ∃ t, formatPct v = "+" ++ t) ∧
    (∀ v : ℚ, v < 0 → ∃ t, formatPct v = "-" ++ t) ∧
    formatPct 50 = "+50.0%" ∧
    formatPct (-50) = "-50.0%" ∧
    formatPct 999900 = "+999.9K%" ∧
    formatPct 0.5 = "+0.5000%" :=
  ⟨formatPct_eq_spec, formatPct_pos, formatPct_neg,
   by decide, by decide, by decide, by decide⟩

theorem c3_percentage_display_tiers_witness :
    (∃ t, formatPct 400 = "+" ++ t) ∧ (∃ t, formatPct (-400) = "-" ++ t) :=
  ⟨c3_percentage_display_tiers.2.1 400 (by norm_num),
   c3_percentage_display_tiers.2.2.1 (-400) (by norm_num)⟩

/-- C5: `formatTokenPrice` evaluates its tiers top-to-bottom with the first
matching rule applying, exactly as the claim ranges them (including the
compact leading-zero notation and its exponential fallback), and the
concrete examples of the spec hold. -/
theorem c5_token_price_tiers :
    (∀ p : ℚ, formatTokenPrice p = formatTokenPriceSpec p) ∧
    formatTokenPrice 0 = "$0" ∧
    formatTokenPrice (-5) = "$0" ∧
    formatTokenPrice 100 = "$100.00" ∧
    formatTokenPrice 0.0000024 = "$0.0\x7b5\x7d2400" ∧
    formatTokenPrice 1000000 = "$1.00M" :=
  ⟨formatTokenPrice_eq_spec, by decide, by decide, by decide, by decide, by decide⟩

theorem jsUpperChars_ascii (c : Char) (ha : c ≤ '\x7F')
    (hl : ¬('a' ≤ c ∧ c ≤ 'z')) : jsUpperChars c = [c] := by
  unfold jsUpperChars
  rw [if_neg hl,
    if_neg (fun h => absurd ha (by subst h; decide)),
    if_neg (fun h => absurd ha (by subst h; decide)),
    if_neg (fun h => absurd (le_trans h.1 ha) (by decide)),
    if_neg (fun h => absurd ha (by subst h; decide)),
    if_neg (fun h => absurd ha (by subst h; decide)),
    if_neg (fun h => absurd ha (by subst h; decide)),
    if_neg (fun h => absurd ha (by subst h; decide)),
    if_neg (fun h => absurd ha (by subst h; decide)),
    if_neg (fun h => absurd ha (by subst h; decide)),
    if_neg (fun h => absurd ha (by subst h; decide)),
    if_neg (fun h => absurd ha (by subst h; decide)),
    if_neg (fun h => absurd ha (by subst h; decide)),
    if_neg (fun h => absurd ha (by subst h; decide)),
    if_neg (fun h => absurd ha (by subst h; decide))]

theorem jsUpperChars_keep (c : Char) (h : isTickerKeep c = true) :
    jsUpperChars c = [c] := by
  have hZ : c ≤ 'Z' := by
    rcases of_decide_eq_true h with ⟨_, h2⟩ | ⟨_, h2⟩ | h2
    · exact h2
    · exact le_trans h2 (by decide)
    · subst h2
      decide
  have ha : c ≤ '\x7F' := le_trans hZ (by decide)
  have hl : ¬('a' ≤ c ∧ c ≤ 'z') := fun hc => absurd (le_trans hc.1 hZ) (by decide)
  exact jsUpperChars_ascii c ha hl

theorem flatMap_fix {α : Type} (f : α → List α) :
    ∀ l : List α, (∀ a ∈ l, f a = [a]) → l.flatMap f = l := by
  intro l
  induction l with
  | nil => intro _; rfl
  | cons a t ih =>
    intro h
    show f a ++ t.flatMap f = a :: t
    rw [h a (List.mem_cons_self a t), ih (fun x hx => h x (List.mem_cons_of_mem a hx))]
    rfl

theorem utf16Len_ascii : ∀ l : List Char, (∀ c ∈ l, c ≤ '\x7F') →
    (l.map utf16Width).sum = l.length := by
  intro l
  induction l with
  | nil => intro _; rfl
  | cons a t ih =>
    intro h
    have hw : utf16Width a = 1 := by
      unfold utf16Width
      rw [if_pos (lt_of_le_of_lt (h a (List.mem_cons_self a t)) (by decide))]
    rw [List.map_cons, List.sum_cons, hw,
      ih (fun c hc => h c (List.mem_cons_of_mem a hc)), List.length_cons]
    omega

theorem trimList_subset (l : List Char) : trimList l ⊆ l := by
  intro c hc
  unfold trimList at hc
  have h1 := List.mem_reverse.mp hc
  have h2 := (List.dropWhile_sublist _).subset h1
  have h3 := List.mem_reverse.mp h2
  exact (List.dropWhile_sublist _).subset h3

/-- C7: `sanitizeTicker` upper-cases, strips to `[A-Z0-9$]` and truncates to
20 characters (so already-sanitized inputs are fixed points and the spec's
examples hold), and `sanitizeString` strips control characters and angle
brackets, trims, then enforces the length ceiling. -/
theorem c7_sanitizers :
    sanitizeTicker "<script>" = "SCRIPT" ∧
    sanitizeTicker "$BTC" = "$BTC" ∧
    sanitizeTicker "$btc" = "$BTC" ∧
    (∀ s : String, (sanitizeTicker s).length ≤ 20) ∧
    (∀ s : String, ∀ c ∈ (sanitizeTicker s).data, isTickerKeep c = true) ∧
    (∀ s : String, (∀ c ∈ s.data, isTickerKeep c = true) → s.data.length ≤ 20 →
      sanitizeTicker s = s) ∧
    (∀ (s : String) (n : ℕ), ∀ c ∈ (sanitizeString s n).data, isStripped c = false) ∧
    (∀ (s : String) (n : ℕ), (sanitizeString s n).length ≤ n) ∧
    sanitizeString "a\x00b<c>" 100 = "abc" ∧
    sanitizeString "   abc" 4 = "abc" := by
  refine ⟨by decide, by decide, by decide, ?_, ?_, ?_, ?_, ?_, by decide, by decide⟩
  · intro s
    show (List.take 20 _).length ≤ 20
    rw [List.length_take]
    exact min_le_left _ _
  · intro s c hc
    have hc' : c ∈ ((s.data.flatMap jsUpperChars).filter isTickerKeep).take 20 := hc
    have h1 := List.take_subset _ _ hc'
    exact (List.mem_filter.mp h1).2
  · intro s hall hlen
    cases s with | mk l =>
    show String.mk (((l.flatMap jsUpperChars).filter isTickerKeep).take 20) = String.mk l
    have hmap : l.flatMap jsUpperChars = l :=
      flatMap_fix jsUpperChars l (fun c hc => jsUpperChars_keep c (hall c hc))
    rw [hmap, List.filter_eq_self.mpr hall, List.take_of_length_le hlen]
  · intro s n c hc
    have hc' : c ∈ (trimList (s.data.filter fun c => !isStripped c)).take n := hc
    have h1 := List.take_subset _ _ hc'
    have h2 := trimList_subset _ h1
    simpa using (List.mem_filter.mp h2).2
  · intro s n
    show (List.take n _).length ≤ n
    rw [List.length_take]
    exact min_le_left _ _

theorem c7_sanitizers_witness : sanitizeTicker "BTC9$" = "BTC9$" :=
  c7_sanitizers.2.2.2.2.2.1 "BTC9$" (by decide) (by decide)

theorem tickerErrs_cases {s : String} {t : JVal} (h : s ∈ tickerErrs t) :
    s = "ticker is required" ∨ s = "ticker must be 20 characters or less" := by
  unfold tickerErrs at h
  split_ifs at h <;> simp_all

theorem entryErrs_cases {s : String} {v : JVal} (h : s ∈ entryErrs v) :
    s = "entry_price is required" ∨ s = "entry_price must be a valid number" ∨
    s = "entry_price must be greater than zero" ∨ s = "entry_price out of range" := by
  unfold entryErrs at h
  split_ifs at h <;> simp_all

theorem currentErrs_cases {s : String} {v : JVal} (h : s ∈ currentErrs v) :
    s = "current_price is required" ∨ s = "current_price must be a valid number" ∨
    s = "current_price cannot be negative" ∨ s = "current_price out of range" := by
  unfold currentErrs at h
  split_ifs at h <;> simp_all

theorem themeErrs_cases {s : String} {v : JVal} (h : s ∈ themeErrs v) :
    s = "theme must be: dark, light, degen" := by
  unfold themeErrs at h
  split_ifs at h <;> simp_all

theorem tagErrs_cases {s : String} {v : JVal} (h : s ∈ tagErrs v) :
    s = "wallet_tag invalid" := by
  unfold tagErrs at h
  split_ifs at h <;> simp_all

theorem tsErrs_cases {s : String} {v : JVal} (h : s ∈ tsErrs v) :
    s = "timestamp invalid" := by
  unfold tsErrs at h
  split_ifs at h <;> simp_all

theorem mem_validate {s : String} {b : ReqBag} :
    s ∈ validate b ↔
      s ∈ tickerErrs b.ticker ∨ s ∈ entryErrs b.entry_price ∨
      s ∈ currentErrs b.current_price ∨ s ∈ themeErrs b.theme ∨
      s ∈ tagErrs b.wallet_tag ∨ s ∈ tsErrs b.timestamp := by
  unfold validate
  simp [List.mem_append, or_assoc]

theorem tickerReq_mem_iff {t : JVal} :
    "ticker is required" ∈ tickerErrs t ↔ tickerRequiredFail t = true := by
  unfold tickerErrs
  split_ifs with g1 g2 <;> simp_all

theorem entryReq_mem_iff {v : JVal} :
    "entry_price is required" ∈ entryErrs v ↔ v.isNullish = true := by
  unfold entryErrs
  split_ifs with g1 g2 g3 g4 <;> simp_all

theorem currentReq_mem_iff {v : JVal} :
    "current_price is required" ∈ currentErrs v ↔ v.isNullish = true := by
  unfold currentErrs
  split_ifs with g1 g2 g3 g4 <;> simp_all

/-- C6: `validate` aggregates: every field's check contributes at most one
error, the error list is the concatenation of all six field checks (so its
length is the number of failing fields), a required-field message is
present exactly when that field's requirement fails — independently of the
other fields — and the all-missing request yields exactly one entry per
missing required field, not just the first. -/
theorem c6_validator_collects_all :
    validate ⟨.undef, .undef, .undef, .undef, .undef, .undef⟩ =
      ["ticker is required", "entry_price is required", "current_price is required"] ∧
    (∀ b : ReqBag, ("ticker is required" ∈ validate b ↔ tickerRequiredFail b.ticker = true)) ∧
    (∀ b : ReqBag, ("entry_price is required" ∈ validate b ↔ b.entry_price.isNullish = true)) ∧
    (∀ b : ReqBag, ("current_price is required" ∈ validate b ↔ b.current_price.isNullish = true)) ∧
    (∀ b : ReqBag, (validate b).length =
      (tickerErrs b.ticker).length + (entryErrs b.entry_price).length +
      (currentErrs b.current_price).length + (themeErrs b.theme).length +
      (tagErrs b.wallet_tag).length + (tsErrs b.timestamp).length) ∧
    (∀ v : JVal, (tickerErrs v).length ≤ 1 ∧ (entryErrs v).length ≤ 1 ∧
      (currentErrs v).length ≤ 1 ∧ (themeErrs v).length ≤ 1 ∧
      (tagErrs v).length ≤ 1 ∧ (tsErrs v).length ≤ 1) := by
  refine ⟨by decide, ?_, ?_, ?_, ?_, ?_⟩
  · intro b
    rw [mem_validate]
    constructor
    · rintro (h | h | h | h | h | h)
      · exact tickerReq_mem_iff.mp h
      · rcases entryErrs_cases h with e | e | e | e <;> exact absurd e (by decide)
      · rcases currentErrs_cases h with e | e | e | e <;> exact absurd e (by decide)
      · exact absurd (themeErrs_cases h) (by decide)
      · exact absurd (tagErrs_cases h) (by decide)
      · exact absurd (tsErrs_cases h) (by decide)
    · intro h
      exact Or.inl (tickerReq_mem_iff.mpr h)
  · intro b
    rw [mem_validate]
    constructor
    · rintro (h | h | h | h | h | h)
      · rcases tickerErrs_cases h with e | e <;> exact absurd e (by decide)
      · exact entryReq_mem_iff.mp h
      · rcases currentErrs_cases h with e | e | e | e <;> exact absurd e (by decide)
      · exact absurd (themeErrs_cases h) (by decide)
      · exact absurd (tagErrs_cases h) (by decide)
      · exact absurd (tsErrs_cases h) (by decide)
    · intro h
      exact Or.inr (Or.inl (entryReq_mem_iff.mpr h))
  · intro b
    rw [mem_validate]
    constructor
    · rintro (h | h | h | h | h | h)
      · rcases tickerErrs_cases h with e | e <;> exact absurd e (by decide)
      · rcases entryErrs_cases h with e | e | e | e <;> exact absurd e (by decide)
      · exact currentReq_mem_iff.mp h
      · exact absurd (themeErrs_cases h) (by decide)
      · exact absurd (tagErrs_cases h) (by decide)
      · exact absurd (tsErrs_cases h) (by decide)
    · intro h
      exact Or.inr (Or.inr (Or.inl (currentReq_mem_iff.mpr h)))
  · intro b
    unfold validate
    simp only [List.length_append]
  · intro v
    refine ⟨?_, ?_, ?_, ?_, ?_, ?_⟩ <;>
      first
        | (unfold tickerErrs; split_ifs <;> simp)
        | (unfold entryErrs; split_ifs <;> simp)
        | (unfold currentErrs; split_ifs <;> simp)
        | (unfold themeErrs; split_ifs <;> simp)
        | (unfold tagErrs; split_ifs <;> simp)
        | (unfold tsErrs; split_ifs <;> simp)

/-- C8: the rendering pipeline is a pure function of the card data and
theme: with any fixed encoding backend, identical arguments produce
byte-identical encoded output. -/
theorem c8_render_deterministic (encode : List DrawOp → List ℕ)
    (d₁ d₂ : CardData) (θ₁ θ₂ : Theme)
    (h1 : d₁.tokenSymbol = d₂.tokenSymbol) (h2 : d₁.entryPrice = d₂.entryPrice)
    (h3 : d₁.currentPrice = d₂.currentPrice) (h4 : d₁.pnl = d₂.pnl)
    (h5 : d₁.walletTag = d₂.walletTag) (h6 : d₁.timestamp = d₂.timestamp)
    (hθ : θ₁ = θ₂) :
    renderCardBytes encode d₁ θ₁ = renderCardBytes encode d₂ θ₂ := by
  cases d₁
  cases d₂
  simp only at h1 h2 h3 h4 h5 h6
  subst h1 h2 h3 h4 h5 h6 hθ
  rfl

theorem c8_render_deterministic_witness :
    renderCardBytes (fun _ => []) ⟨"BTC", 100, 200, ⟨100, true, "+100.0%"⟩, none, none⟩ .dark =
    renderCardBytes (fun _ => []) ⟨"BTC", 100, 200, ⟨100, true, "+100.0%"⟩, none, none⟩ .dark :=
  c8_render_deterministic (fun _ => []) _ _ _ _ rfl rfl rfl rfl rfl rfl rfl

theorem jsUpperChars_source_false (c : Char) (ha : c ≤ '\x7F')
    (h : isTickerSourceChar c = false) :
    jsUpperChars c = [c] ∧ isTickerKeep c = false := by
  have hP := of_decide_eq_false h
  have hl : ¬('a' ≤ c ∧ c ≤ 'z') := fun hlow => hP (Or.inr (Or.inl hlow))
  refine ⟨jsUpperChars_ascii c ha hl, ?_⟩
  cases hk : isTickerKeep c
  · rfl
  · exfalso
    rcases of_decide_eq_true hk with h' | h' | h'
    · exact hP (Or.inl h')
    · exact hP (Or.inr (Or.inr (Or.inl h')))
    · exact hP (Or.inr (Or.inr (Or.inr h')))

/-- C9 (counterexample): the claim's universal statement fails on the real
case mappings: the ticker `"ß"` is non-blank after trimming, one character
long and free of `[A-Za-z0-9$]` characters, passes the ticker checks with
no error, yet upper-casing expands it to `"SS"`, so the request proceeds
with `tokenSymbol = "SS"`, not the empty string. -/
theorem c9_counterexample :
    jsTrim "ß" ≠ "" ∧
    ("ß" : String).data = ['ß'] ∧
    isTickerSourceChar 'ß' = false ∧
    utf16Len "ß" ≤ 20 ∧
    tickerErrs (.jstr "ß") = [] ∧
    sanitizeTicker "ß" = "SS" ∧
    handleGenerateCard "now" ⟨.jstr "ß", .jnum 100, .jnum 150, .undef, .undef, .undef⟩ =
      .success ⟨"SS", 100, 150, ⟨50, true, "+50.0%"⟩, none, some "now"⟩ "dark" := by decide

/-- C9 (amended): over ASCII tickers a ticker that becomes empty only after
sanitization is silently accepted: any ticker of ASCII characters that is
non-blank after trimming, at most 20 characters long and free of
`[A-Za-z0-9$]` characters passes `validate` with no ticker error and
sanitizes to the empty string — post-strip emptiness is never re-validated
— and the request `ticker = "!!!"` succeeds end to end with
`tokenSymbol = ""`. Beyond ASCII a full case mapping can make the
sanitized ticker non-empty (`"ß" ↦ "SS"`), though it is still silently
accepted. -/
theorem c9_empty_after_strip_accepted :
    (∀ s : String, (∀ c ∈ s.data, c ≤ '\x7F') → jsTrim s ≠ "" → s.length ≤ 20 →
      (∀ c ∈ s.data, isTickerSourceChar c = false) →
      tickerErrs (.jstr s) = [] ∧ sanitizeTicker s = "") ∧
    (∀ now : String,
      handleGenerateCard now ⟨.jstr "!!!", .jnum 100, .jnum 150, .undef, .undef, .undef⟩ =
        .success ⟨"", 100, 150, ⟨50, true, "+50.0%"⟩, none, some now⟩ "dark") := by
  constructor
  · intro s hascii hne hlen hall
    have hs : s ≠ "" := by
      intro h
      subst h
      exact hne (by decide)
    constructor
    · unfold tickerErrs
      have hreq : tickerRequiredFail (.jstr s) = false := by
        unfold tickerRequiredFail
        simp [JVal.falsy, JVal.isStr, JVal.asStr, beq_eq_false_iff_ne, hs, hne]
      rw [hreq]
      have hulen : utf16Len s = s.length := utf16Len_ascii s.data hascii
      have hnl : ¬(20 < utf16Len (JVal.jstr s).asStr) := by
        show ¬(20 < utf16Len s)
        rw [hulen]
        exact not_lt.mpr hlen
      simp only [Bool.false_eq_true, if_false, if_neg hnl]
    · cases s with | mk l =>
      show String.mk (((l.flatMap jsUpperChars).filter isTickerKeep).take 20) = String.mk []
      congr 1
      have hflat : l.flatMap jsUpperChars = l :=
        flatMap_fix jsUpperChars l (fun c hc =>
          (jsUpperChars_source_false c (hascii c hc) (hall c hc)).1)
      have hnil : l.filter isTickerKeep = [] := by
        rw [List.filter_eq_nil_iff]
        intro a ha
        rw [(jsUpperChars_source_false a (hascii a ha) (hall a ha)).2]
        simp
      rw [hflat, hnil]
      rfl
  · intro now
    rfl

theorem c9_empty_after_strip_accepted_witness :
    tickerErrs (.jstr "!!!") = [] ∧ sanitizeTicker "!!!" = "" :=
  c9_empty_after_strip_accepted.1 "!!!" (by decide) (by decide) (by decide) (by decide)

